import Mathlib

/-!
Verification of the partial secret patch engine of
`terraform-provider-vaultpatch` (`internal/provider/resource_kv_keys.go`).

Documents and managed key sets are Go `map[string]string` values; they are
embedded as association lists with at most one binding per key (the map
invariant appears as a `Nodup` hypothesis where key uniqueness matters).
All map observations go through `lookup`.
-/

namespace VaultPatch

/-- A remote KV document or a managed key set: finitely many string keys,
each bound to a string value (Go `map[string]string`). -/
abbrev Doc := List (String × String)

/-- Go map indexing `m[k]`: value of the first binding of `k`, if any. -/
def lookup : Doc → String → Option String
  | [], _ => none
  | (k, v) :: rest, key => if k = key then some v else lookup rest key

/-- The key set of a document. -/
def docKeys (d : Doc) : List String := d.map Prod.fst

/-- Go map assignment `m[k] = v`: overwrite the binding of `k`, or append one. -/
def insertKey : Doc → String → String → Doc
  | [], key, val => [(key, val)]
  | (k, v) :: rest, key, val =>
      if k = key then (key, val) :: rest else (k, v) :: insertKey rest key val

/-- Go `delete(m, k)`: drop every binding of `k`. -/
def eraseKey : Doc → String → Doc
  | [], _ => []
  | (k, v) :: rest, key =>
      if k = key then eraseKey rest key else (k, v) :: eraseKey rest key

/-- `mergeKeys` from resource_kv_keys.go: copy `existingData`, then write every
binding of `newKeys` on top (insert or overwrite). -/
def mergeKeys (existingData newKeys : Doc) : Doc :=
  newKeys.foldl (fun acc kv => insertKey acc kv.1 kv.2) existingData

/-- `keysMatch` from resource_kv_keys.go: true iff every binding of `planned`
is present in `existing` with an equal value. -/
def keysMatch (existing planned : Doc) : Bool :=
  planned.all (fun kv =>
    match lookup existing kv.1 with
    | none => false
    | some ev => ev == kv.2)

/-- The deletion loop of `Update`: for every key of `stateKeys` absent from
`planKeys`, delete it from the working copy of `existingData`. -/
def removeStale (existingData stateKeys planKeys : Doc) : Doc :=
  stateKeys.foldl
    (fun acc kv => if (lookup planKeys kv.1).isSome then acc else eraseKey acc kv.1)
    existingData

/-- The deletion loop of `Delete`: remove every key of `stateKeys` from
`existingData`. -/
def removeAll (existingData stateKeys : Doc) : Doc :=
  stateKeys.foldl (fun acc kv => eraseKey acc kv.1) existingData

/-- The observation loop of `Read`: `currentKeys[k] = existingData[k]` for
every key `k` of `stateKeys` still present in `existingData`. -/
def observedKeys (existingData stateKeys : Doc) : Doc :=
  stateKeys.filterMap (fun kv => (lookup existingData kv.1).map (fun v => (kv.1, v)))

/-- Outcome of parsing the body of a fetch response (`json.Unmarshal` plus the
`result.Data.Data == nil` check in `readSecret`). -/
inductive BodyData
  | parseError
  | nilData
  | dataMap (d : Doc)
deriving DecidableEq

/-- A fetch attempt as seen by `readSecret`: either the HTTP round trip itself
failed, or Vault answered with a status code and a body. -/
inductive FetchResult
  | transportError (msg : String)
  | response (status : Nat) (body : BodyData)
deriving DecidableEq

/-- `readSecret` from resource_kv_keys.go: transport errors propagate; 404
yields an empty document with no error; any other non-200 status is an error;
on 200 the parsed body (or an empty document when `data.data` is null). -/
def readSecret : FetchResult → Except String Doc
  | .transportError msg => .error msg
  | .response status body =>
      if status = 404 then .ok []
      else if status ≠ 200 then .error "vault returned non-OK status"
      else
        match body with
        | .parseError => .error "failed to parse response"
        | .nilData => .ok []
        | .dataMap d => .ok d

/-- What a Create/Update/Delete call did: `errored` is the diagnostic error it
raised (if any); `storeAttempt` is the full document it passed to
`writeSecret` (if a store was attempted). -/
structure OpOutcome where
  errored : Option String
  storeAttempt : Option Doc
deriving DecidableEq

/-- What a Read (refresh) call did: whether the resource was removed from
state, the refreshed key map otherwise, and any diagnostic error raised. -/
structure ReadOutcome where
  removed : Bool
  newKeys : Option Doc
  errored : Option String
deriving DecidableEq

/-- What an ImportState call did: any diagnostic error raised, else the
imported state as (mount, path, adopted keys). -/
structure ImportOutcome where
  errored : Option String
  imported : Option (String × String × Doc)
deriving DecidableEq

/-- The `changed` test of `Create`: a write happens iff `keysMatch` fails. -/
def createChanged (existingData planKeys : Doc) : Bool :=
  !(keysMatch existingData planKeys)

/-- Document at the path after a successful `Create`: untouched when
`keysMatch`, else `mergeKeys existingData planKeys` is written. -/
def createResult (existingData planKeys : Doc) : Doc :=
  if keysMatch existingData planKeys then existingData
  else mergeKeys existingData planKeys

/-- `Create` from resource_kv_keys.go, given the fetch outcome and whether the
store (if attempted) fails with some error. -/
def createOp (fetch : Except String Doc) (planKeys : Doc) (storeErr : Option String) :
    OpOutcome :=
  match fetch with
  | .error msg => ⟨some msg, none⟩
  | .ok existingData =>
      if keysMatch existingData planKeys then ⟨none, none⟩
      else ⟨storeErr, some (mergeKeys existingData planKeys)⟩

/-- Document written by `Update`: delete from `existingData` every key of
`stateKeys` absent from `planKeys`, then merge `planKeys` on top. -/
def updateResult (existingData stateKeys planKeys : Doc) : Doc :=
  mergeKeys (removeStale existingData stateKeys planKeys) planKeys

/-- `Update` from resource_kv_keys.go: the fetch error aborts; otherwise the
merged document is always stored. -/
def updateOp (fetch : Except String Doc) (stateKeys planKeys : Doc)
    (storeErr : Option String) : OpOutcome :=
  match fetch with
  | .error msg => ⟨some msg, none⟩
  | .ok existingData => ⟨storeErr, some (updateResult existingData stateKeys planKeys)⟩

/-- Document written by `Delete`: `existingData` with every key of `stateKeys`
removed. -/
def deleteResult (existingData stateKeys : Doc) : Doc :=
  removeAll existingData stateKeys

/-- `Delete` from resource_kv_keys.go: a fetch error is treated as already
cleaned up (no error, no store); otherwise the remaining document is always
stored. -/
def deleteOp (fetch : Except String Doc) (stateKeys : Doc) (storeErr : Option String) :
    OpOutcome :=
  match fetch with
  | .error _ => ⟨none, none⟩
  | .ok existingData => ⟨storeErr, some (deleteResult existingData stateKeys)⟩

/-- `Read` from resource_kv_keys.go: a fetch error removes the resource from
state (no diagnostic error); an empty observed key set removes it too; else
the state keys are refreshed to the observed values. -/
def readOp (fetch : Except String Doc) (stateKeys : Doc) : ReadOutcome :=
  match fetch with
  | .error _ => ⟨true, none, none⟩
  | .ok existingData =>
      let current := observedKeys existingData stateKeys
      if current.isEmpty then ⟨true, none, none⟩
      else ⟨false, some current, none⟩

/-- `strings.Index(id, "/")` plus the two slices `id[:idx]` and `id[idx+1:]`:
split at the first slash, `none` when there is no slash. -/
def splitFirstSlash : List Char → Option (List Char × List Char)
  | [] => none
  | c :: rest =>
      if c = '/' then some ([], rest)
      else (splitFirstSlash rest).map (fun p => (c :: p.1, p.2))

/-- `ImportState` from resource_kv_keys.go: validate the `mount/path` id, then
adopt the entire fetched document as the managed key set. -/
def importOp (id : String) (fetch : Except String Doc) : ImportOutcome :=
  match splitFirstSlash id.toList with
  | none => ⟨some "Invalid Import ID", none⟩
  | some (m, p) =>
      if m.isEmpty || p.isEmpty then ⟨some "Invalid Import ID", none⟩
      else
        match fetch with
        | .error msg => ⟨some msg, none⟩
        | .ok existingData => ⟨none, some (m.asString, p.asString, existingData)⟩

/-! ### Lookup lemmas for the map primitives -/

theorem lookup_eq_none_iff (d : Doc) (k : String) :
    lookup d k = none ↔ k ∉ docKeys d := by
  induction d with
  | nil => simp [lookup, docKeys]
  | cons hd tl ih =>
      simp only [docKeys, List.map_cons, List.mem_cons, lookup]
      by_cases h : hd.1 = k
      · simp [h]
      · have h2 : ¬ k = hd.1 := fun hk => h hk.symm
        rw [if_neg h]
        simp only [docKeys] at ih
        rw [ih]
        simp [not_or, h2]

theorem lookup_insertKey (d : Doc) (k v k' : String) :
    lookup (insertKey d k v) k' = if k' = k then some v else lookup d k' := by
  induction d with
  | nil =>
      by_cases h : k' = k
      · simp [insertKey, lookup, h]
      · have h2 : ¬ k = k' := fun hk => h hk.symm
        simp [insertKey, lookup, h, h2]
  | cons hd tl ih =>
      by_cases h0 : hd.1 = k
      · by_cases h : k' = k
        · simp [insertKey, lookup, h0, h]
        · have h2 : ¬ k = k' := fun hk => h hk.symm
          have h3 : ¬ hd.1 = k' := fun hk => h (hk.symm.trans h0)
          simp [insertKey, lookup, h0, h, h2, h3]
      · by_cases h1 : hd.1 = k'
        · have hkk : ¬ k' = k := fun hh => h0 (h1.trans hh)
          simp [insertKey, lookup, h0, h1, hkk]
        · simp [insertKey, lookup, h0, h1, ih]

theorem lookup_eraseKey (d : Doc) (k k' : String) :
    lookup (eraseKey d k) k' = if k' = k then none else lookup d k' := by
  induction d with
  | nil => by_cases h : k' = k <;> simp [eraseKey, lookup, h]
  | cons hd tl ih =>
      by_cases h0 : hd.1 = k
      · by_cases h : k' = k
        · subst h
          simp [eraseKey, lookup, h0, ih]
        · have h2 : ¬ k = k' := fun hk => h hk.symm
          have h3 : ¬ hd.1 = k' := fun hk => h (hk.symm.trans h0)
          simp [eraseKey, lookup, h0, h, h2, h3, ih]
      · by_cases h1 : hd.1 = k'
        · have hkk : ¬ k' = k := fun hh => h0 (h1.trans hh)
          simp [eraseKey, lookup, h0, h1, hkk]
        · simp [eraseKey, lookup, h0, h1, ih]

theorem lookup_of_mem (p : Doc) (kv : String × String) :
    (docKeys p).Nodup → kv ∈ p → lookup p kv.1 = some kv.2 := by
  induction p with
  | nil => intro _ h; simp at h
  | cons hd tl ih =>
      intro hnd hm
      simp only [docKeys, List.map_cons, List.nodup_cons] at hnd
      rcases List.mem_cons.mp hm with h | h
      · subst h
        simp [lookup]
      · have hne : ¬ hd.1 = kv.1 := by
          intro he
          exact hnd.1 (by rw [he]; exact List.mem_map_of_mem Prod.fst h)
        simp [lookup, hne, ih hnd.2 h]

theorem lookup_mergeKeys_not_mem (e n : Doc) (k : String) :
    k ∉ docKeys n → lookup (mergeKeys e n) k = lookup e k := by
  induction n generalizing e with
  | nil => intro _; simp [mergeKeys]
  | cons hd tl ih =>
      intro h
      simp only [docKeys, List.map_cons, List.mem_cons, not_or] at h
      show lookup (mergeKeys (insertKey e hd.1 hd.2) tl) k = lookup e k
      rw [ih _ (by simpa [docKeys] using h.2), lookup_insertKey, if_neg h.1]

theorem lookup_mergeKeys_of_lookup (e n : Doc) (k v : String) :
    (docKeys n).Nodup → lookup n k = some v → lookup (mergeKeys e n) k = some v := by
  induction n generalizing e with
  | nil => intro _ h; simp [lookup] at h
  | cons hd tl ih =>
      intro hnd hl
      simp only [docKeys, List.map_cons, List.nodup_cons] at hnd
      show lookup (mergeKeys (insertKey e hd.1 hd.2) tl) k = some v
      by_cases hk : hd.1 = k
      · have hv : hd.2 = v := by simpa [lookup, hk] using hl
        have hknot : k ∉ docKeys tl := by
          rw [← hk]; simpa [docKeys] using hnd.1
        rw [lookup_mergeKeys_not_mem _ _ _ hknot, lookup_insertKey, if_pos hk.symm, hv]
      · have hl2 : lookup tl k = some v := by simpa [lookup, hk] using hl
        exact ih _ hnd.2 hl2

theorem lookup_removeAll (e s : Doc) (k : String) :
    lookup (removeAll e s) k = if k ∈ docKeys s then none else lookup e k := by
  induction s generalizing e with
  | nil => simp [removeAll, docKeys]
  | cons hd tl ih =>
      show lookup (removeAll (eraseKey e hd.1) tl) k = _
      rw [ih]
      simp only [docKeys, List.map_cons, List.mem_cons]
      by_cases hmem : k ∈ List.map Prod.fst tl
      · simp [docKeys, hmem]
      · by_cases hk : k = hd.1
        · simp [docKeys, hmem, hk, lookup_eraseKey]
        · simp [docKeys, hmem, hk, lookup_eraseKey]

theorem lookup_removeStale_not_mem (e s p : Doc) (k : String) :
    k ∉ docKeys s → lookup (removeStale e s p) k = lookup e k := by
  induction s generalizing e with
  | nil => intro _; simp [removeStale]
  | cons hd tl ih =>
      intro h
      simp only [docKeys, List.map_cons, List.mem_cons, not_or] at h
      show lookup
          (removeStale (if (lookup p hd.1).isSome then e else eraseKey e hd.1) tl p) k =
          lookup e k
      rw [ih _ (by simpa [docKeys] using h.2)]
      by_cases hp : (lookup p hd.1).isSome
      · simp [hp]
      · simp [hp, lookup_eraseKey, h.1]

theorem lookup_removeStale_stale (e s p : Doc) (k : String) :
    k ∈ docKeys s → lookup p k = none → lookup (removeStale e s p) k = none := by
  induction s generalizing e with
  | nil => intro h _; simp [docKeys] at h
  | cons hd tl ih =>
      intro h hp
      show lookup
          (removeStale (if (lookup p hd.1).isSome then e else eraseKey e hd.1) tl p) k =
          none
      by_cases hmem : k ∈ docKeys tl
      · exact ih _ hmem hp
      · have hk : k = hd.1 := by
          simp only [docKeys, List.map_cons, List.mem_cons] at h
          rcases h with h | h
          · exact h
          · exact absurd (by simpa [docKeys] using h) hmem
        have hp1 : (lookup p hd.1).isSome = false := by
          rw [← hk, hp]; rfl
        rw [lookup_removeStale_not_mem _ _ _ _ hmem]
        simp [hp1, lookup_eraseKey, hk]

theorem lookup_observedKeys (e s : Doc) (k : String) :
    lookup (observedKeys e s) k = if k ∈ docKeys s then lookup e k else none := by
  induction s with
  | nil => simp [observedKeys, lookup, docKeys]
  | cons hd tl ih =>
      simp only [observedKeys, List.filterMap_cons] at ih ⊢
      simp only [docKeys, List.map_cons, List.mem_cons]
      cases hle : lookup e hd.1 with
      | none =>
          simp only [Option.map_none']
          rw [ih]
          simp only [docKeys]
          by_cases hk : k = hd.1
          · have hke : lookup e k = none := by rw [hk, hle]
            rw [hke, ite_self, ite_self]
          · exact (if_congr (or_iff_right hk) rfl rfl).symm
      | some w =>
          simp only [Option.map_some']
          by_cases hk : hd.1 = k
          · simp [lookup, hk, ih, hk ▸ hle]
          · have hk2 : ¬ k = hd.1 := fun hh => hk hh.symm
            simp only [lookup, if_neg hk]
            rw [ih]
            simp only [docKeys]
            exact (if_congr (or_iff_right hk2) rfl rfl).symm

theorem keysMatch_iff (e p : Doc) :
    keysMatch e p = true ↔ ∀ kv ∈ p, lookup e kv.1 = some kv.2 := by
  simp only [keysMatch, List.all_eq_true]
  constructor
  · intro h kv hkv
    have h2 := h kv hkv
    cases hle : lookup e kv.1 with
    | none => rw [hle] at h2; simp at h2
    | some ev =>
        rw [hle] at h2
        simp only [beq_iff_eq] at h2
        rw [h2]
  · intro h kv hkv
    rw [h kv hkv]
    simp

theorem insertKey_lookup_self (d : Doc) (k v : String) :
    lookup d k = some v → insertKey d k v = d := by
  induction d with
  | nil => intro h; simp [lookup] at h
  | cons hd tl ih =>
      obtain ⟨a, b⟩ := hd
      intro h
      by_cases h0 : a = k
      · have hv : b = v := by simpa [lookup, h0] using h
        simp [insertKey, h0, hv]
      · have h2 : lookup tl k = some v := by simpa [lookup, h0] using h
        simp [insertKey, h0, ih h2]

theorem mergeKeys_self (m p : Doc) :
    (∀ kv ∈ p, lookup m kv.1 = some kv.2) → mergeKeys m p = m := by
  induction p with
  | nil => intro _; rfl
  | cons hd tl ih =>
      intro h
      show mergeKeys (insertKey m hd.1 hd.2) tl = m
      rw [insertKey_lookup_self m hd.1 hd.2 (h hd (List.mem_cons_self hd tl))]
      exact ih fun kv hkv => h kv (List.mem_cons_of_mem hd hkv)

theorem removeAll_nil_left (s : Doc) : removeAll [] s = [] := by
  induction s with
  | nil => rfl
  | cons hd tl ih => exact ih

/-! ### The claims -/

/-- Claim C1: unmanaged-key preservation. For every remote document `D`,
prior/tracked managed set `M` and planned set `P`, each of the create, update
and delete result documents maps any key `k` outside the managed key sets
involved to exactly `lookup D k`: unmanaged keys are never altered or
dropped. -/
theorem claim_C1_unmanaged_preservation (D M P : Doc) (k : String)
    (hP : k ∉ docKeys P) (hM : k ∉ docKeys M) :
    lookup (createResult D P) k = lookup D k ∧
    lookup (updateResult D M P) k = lookup D k ∧
    lookup (deleteResult D M) k = lookup D k := by
  refine ⟨?_, ?_, ?_⟩
  · unfold createResult
    by_cases h : keysMatch D P
    · simp [h]
    · simp [h, lookup_mergeKeys_not_mem _ _ _ hP]
  · unfold updateResult
    rw [lookup_mergeKeys_not_mem _ _ _ hP, lookup_removeStale_not_mem _ _ _ _ hM]
  · unfold deleteResult
    rw [lookup_removeAll, if_neg hM]

/-- Witness for C1: the unmanaged key `"x"` survives create, update and delete
untouched on a concrete document. -/
theorem claim_C1_witness :
    lookup (createResult [("x", "1")] [("a", "2")]) "x" = lookup [("x", "1")] "x" ∧
    lookup (updateResult [("x", "1")] [("m", "0")] [("a", "2")]) "x" =
      lookup [("x", "1")] "x" ∧
    lookup (deleteResult [("x", "1")] [("m", "0")]) "x" = lookup [("x", "1")] "x" :=
  claim_C1_unmanaged_preservation [("x", "1")] [("m", "0")] [("a", "2")] "x"
    (by decide) (by decide)

/-- Claim C2: the update algorithm deletes every prior managed key absent from
the plan (unconditionally, whatever the remote value was) before applying the
planned set on top, so every planned binding ends up with its planned value
and every dropped key ends up absent; and the update path always attempts a
store, with no skip-if-unchanged optimization. -/
theorem claim_C2_update_algorithm (D S P : Doc) (se : Option String)
    (kv : String × String) (k : String) (hP : (docKeys P).Nodup) (hkv : kv ∈ P)
    (hkS : k ∈ docKeys S) (hkP : k ∉ docKeys P) :
    lookup (updateResult D S P) kv.1 = some kv.2 ∧
    lookup (updateResult D S P) k = none ∧
    (updateOp (.ok D) S P se).storeAttempt = some (updateResult D S P) := by
  refine ⟨?_, ?_, rfl⟩
  · exact lookup_mergeKeys_of_lookup _ _ _ _ hP (lookup_of_mem _ _ hP hkv)
  · unfold updateResult
    rw [lookup_mergeKeys_not_mem _ _ _ hkP]
    exact lookup_removeStale_stale _ _ _ _ hkS ((lookup_eq_none_iff _ _).mpr hkP)

/-- Witness for C2: spec example P3 — prior `{a:1, b:2}`, plan `{a:1}`,
existing `{a:1, b:2, c:3}`: `a` keeps its planned value, `b` is removed, and
the merged document is stored. -/
theorem claim_C2_witness :
    lookup (updateResult [("a", "1"), ("b", "2"), ("c", "3")]
      [("a", "1"), ("b", "2")] [("a", "1")]) "a" = some "1" ∧
    lookup (updateResult [("a", "1"), ("b", "2"), ("c", "3")]
      [("a", "1"), ("b", "2")] [("a", "1")]) "b" = none ∧
    (updateOp (.ok [("a", "1"), ("b", "2"), ("c", "3")])
      [("a", "1"), ("b", "2")] [("a", "1")] none).storeAttempt =
      some (updateResult [("a", "1"), ("b", "2"), ("c", "3")]
        [("a", "1"), ("b", "2")] [("a", "1")]) :=
  claim_C2_update_algorithm [("a", "1"), ("b", "2"), ("c", "3")]
    [("a", "1"), ("b", "2")] [("a", "1")] none ("a", "1") "b"
    (by decide) (by decide) (by decide) (by decide)

/-- Claim C5: the delete operation's resulting document is the existing one
with every tracked key removed and all other keys untouched, and a fetch
failure at delete time raises no error and attempts no store. -/
theorem claim_C5_delete_algorithm (D S : Doc) (k : String) (se : Option String)
    (m : String) :
    lookup (deleteResult D S) k = (if k ∈ docKeys S then none else lookup D k) ∧
    (deleteOp (.ok D) S se).storeAttempt = some (deleteResult D S) ∧
    deleteOp (.error m) S se = ⟨none, none⟩ :=
  ⟨lookup_removeAll D S k, rfl, rfl⟩

/-- Claim C7: a 404 fetch (absent document, no error) behaves identically to
fetching an empty document for create, update and delete: same outcome, same
stored document, same changed behaviour. -/
theorem claim_C7_absent_as_empty (b : BodyData) (P S : Doc) (se : Option String) :
    readSecret (.response 404 b) = .ok [] ∧
    createOp (readSecret (.response 404 b)) P se = createOp (.ok []) P se ∧
    updateOp (readSecret (.response 404 b)) S P se = updateOp (.ok []) S P se ∧
    deleteOp (readSecret (.response 404 b)) S se = deleteOp (.ok []) S se :=
  ⟨rfl, rfl, rfl, rfl⟩

/-- Claim C10: whenever the fetch succeeds — including the 404-as-empty case —
delete unconditionally attempts a full-document store of the remaining
document, so deleting against an absent document writes an empty document. -/
theorem claim_C10_delete_always_stores (D S : Doc) (se : Option String)
    (b : BodyData) :
    (deleteOp (.ok D) S se).storeAttempt = some (deleteResult D S) ∧
    deleteOp (readSecret (.response 404 b)) S se = ⟨se, some (removeAll [] S)⟩ ∧
    removeAll [] S = [] ∧
    (deleteOp (readSecret (.response 404 b)) S none).storeAttempt = some [] := by
  refine ⟨rfl, rfl, removeAll_nil_left S, ?_⟩
  show some (removeAll [] S) = some []
  rw [removeAll_nil_left S]

/-- Claim C3: create reports `changed = false` exactly when every planned
binding is already present with an equal value; when unchanged the result is
the existing document and no store is attempted; when changed the merged
document is stored, with every planned binding applied and all other keys
preserved verbatim. -/
theorem claim_C3_create_algorithm (D P : Doc) (se : Option String)
    (kv : String × String) (k : String)
    (hP : (docKeys P).Nodup) (hkv : kv ∈ P) (hk : k ∉ docKeys P) :
    (createChanged D P = false ↔ ∀ kv2 ∈ P, lookup D kv2.1 = some kv2.2) ∧
    createResult D P = (if createChanged D P then mergeKeys D P else D) ∧
    createOp (.ok D) P se =
      (if createChanged D P then ⟨se, some (mergeKeys D P)⟩ else ⟨none, none⟩) ∧
    lookup (createResult D P) kv.1 = some kv.2 ∧
    lookup (createResult D P) k = lookup D k := by
  have hcc : createChanged D P = false ↔ keysMatch D P = true := by
    unfold createChanged
    cases keysMatch D P <;> simp
  refine ⟨?_, ?_, ?_, ?_, ?_⟩
  · rw [hcc, keysMatch_iff]
  · by_cases hkm : keysMatch D P
    · simp [createResult, createChanged, hkm]
    · simp [createResult, createChanged, hkm]
  · by_cases hkm : keysMatch D P
    · simp [createOp, createChanged, hkm]
    · simp [createOp, createChanged, hkm]
  · unfold createResult
    by_cases hkm : keysMatch D P
    · rw [if_pos hkm]
      exact (keysMatch_iff D P).mp hkm kv hkv
    · rw [if_neg hkm]
      exact lookup_mergeKeys_of_lookup _ _ _ _ hP (lookup_of_mem _ _ hP hkv)
  · unfold createResult
    by_cases hkm : keysMatch D P
    · rw [if_pos hkm]
    · rw [if_neg hkm]
      exact lookup_mergeKeys_not_mem _ _ _ hk

/-- Witness for C3: existing `{a:x, z:9}`, plan `{a:y}` — the create path is
changed, overwrites `a`, preserves `z`. -/
theorem claim_C3_witness :
    (createChanged [("a", "x"), ("z", "9")] [("a", "y")] = false ↔
      ∀ kv2 ∈ ([("a", "y")] : Doc),
        lookup [("a", "x"), ("z", "9")] kv2.1 = some kv2.2) ∧
    createResult [("a", "x"), ("z", "9")] [("a", "y")] =
      (if createChanged [("a", "x"), ("z", "9")] [("a", "y")] then
        mergeKeys [("a", "x"), ("z", "9")] [("a", "y")]
      else [("a", "x"), ("z", "9")]) ∧
    createOp (.ok [("a", "x"), ("z", "9")]) [("a", "y")] none =
      (if createChanged [("a", "x"), ("z", "9")] [("a", "y")] then
        ⟨none, some (mergeKeys [("a", "x"), ("z", "9")] [("a", "y")])⟩
      else ⟨none, none⟩) ∧
    lookup (createResult [("a", "x"), ("z", "9")] [("a", "y")]) "a" = some "y" ∧
    lookup (createResult [("a", "x"), ("z", "9")] [("a", "y")]) "z" =
      lookup [("a", "x"), ("z", "9")] "z" :=
  claim_C3_create_algorithm [("a", "x"), ("z", "9")] [("a", "y")] none ("a", "y") "z"
    (by decide) (by decide) (by decide)

/-- Claim C4, as stated, is false: `Read` (refresh) also downgrades a fetch
failure — it raises no diagnostic error and removes the resource from state
instead of aborting, so delete is not the one place a fetch error is
downgraded. -/
theorem claim_C4_counterexample :
    readOp (.error "connection refused") [("a", "1")] = ⟨true, none, none⟩ ∧
    (readOp (.error "connection refused") [("a", "1")]).errored = none :=
  ⟨rfl, rfl⟩

/-- Claim C4 (amended): fetch failures abort create, update and import with
the error surfaced, and store failures are surfaced by create, update and
delete; delete-time fetch failure is downgraded to a no-op (no write, no
error), and refresh-time fetch failure is likewise downgraded — the resource
is removed from state with no error raised. -/
theorem claim_C4_error_propagation (P S D : Doc) (m : String) (se : Option String)
    (id : String) (mp pp : List Char)
    (hid : splitFirstSlash id.toList = some (mp, pp))
    (hm : mp.isEmpty = false) (hp : pp.isEmpty = false)
    (hch : createChanged D P = true) :
    createOp (.error m) P se = ⟨some m, none⟩ ∧
    updateOp (.error m) S P se = ⟨some m, none⟩ ∧
    importOp id (.error m) = ⟨some m, none⟩ ∧
    createOp (.ok D) P (some m) = ⟨some m, some (mergeKeys D P)⟩ ∧
    updateOp (.ok D) S P (some m) = ⟨some m, some (updateResult D S P)⟩ ∧
    deleteOp (.ok D) S (some m) = ⟨some m, some (deleteResult D S)⟩ ∧
    deleteOp (.error m) S se = ⟨none, none⟩ ∧
    readOp (.error m) S = ⟨true, none, none⟩ := by
  have hkm : keysMatch D P = false := by
    unfold createChanged at hch
    cases h : keysMatch D P
    · rfl
    · rw [h] at hch
      simp at hch
  refine ⟨rfl, rfl, ?_, ?_, rfl, rfl, rfl, rfl⟩
  · unfold importOp
    rw [hid]
    simp [hm, hp]
  · simp [createOp, hkm]

/-- Witness for C4 (amended) at concrete inputs, with a valid import id and a
changed create plan. -/
theorem claim_C4_witness :
    createOp (.error "boom") [("a", "1")] none = ⟨some "boom", none⟩ ∧
    updateOp (.error "boom") [("b", "2")] [("a", "1")] none = ⟨some "boom", none⟩ ∧
    importOp "app/cfg" (.error "boom") = ⟨some "boom", none⟩ ∧
    createOp (.ok []) [("a", "1")] (some "boom") =
      ⟨some "boom", some (mergeKeys [] [("a", "1")])⟩ ∧
    updateOp (.ok []) [("b", "2")] [("a", "1")] (some "boom") =
      ⟨some "boom", some (updateResult [] [("b", "2")] [("a", "1")])⟩ ∧
    deleteOp (.ok []) [("b", "2")] (some "boom") =
      ⟨some "boom", some (deleteResult [] [("b", "2")])⟩ ∧
    deleteOp (.error "boom") [("b", "2")] none = ⟨none, none⟩ ∧
    readOp (.error "boom") [("b", "2")] = ⟨true, none, none⟩ :=
  claim_C4_error_propagation [("a", "1")] [("b", "2")] [] "boom" none "app/cfg"
    "app".toList "cfg".toList (by decide) (by decide) (by decide) (by decide)

/-- Claim C6: on refresh, the observed set maps exactly the still-present
tracked keys to their current remote values (tracked keys gone remotely are
omitted), and an empty observed set removes the resource from state instead
of recording an empty set. -/
theorem claim_C6_drift_detection (D S : Doc) (k : String) :
    lookup (observedKeys D S) k = (if k ∈ docKeys S then lookup D k else none) ∧
    readOp (.ok D) S =
      (if (observedKeys D S).isEmpty then ⟨true, none, none⟩
       else ⟨false, some (observedKeys D S), none⟩) :=
  ⟨lookup_observedKeys D S k, rfl⟩

/-- Claim C8: create is idempotent — after `mergeKeys D P` is stored, a second
create with the same plan reports no change, attempts no store, and leaves
the document identical. -/
theorem claim_C8_create_idempotence (D P : Doc) (hP : (docKeys P).Nodup) :
    keysMatch (mergeKeys D P) P = true ∧
    createChanged (mergeKeys D P) P = false ∧
    mergeKeys (mergeKeys D P) P = mergeKeys D P ∧
    createResult (mergeKeys D P) P = mergeKeys D P ∧
    createOp (.ok (mergeKeys D P)) P none = ⟨none, none⟩ := by
  have hall : ∀ kv ∈ P, lookup (mergeKeys D P) kv.1 = some kv.2 := fun kv hkv =>
    lookup_mergeKeys_of_lookup _ _ _ _ hP (lookup_of_mem _ _ hP hkv)
  have hkm : keysMatch (mergeKeys D P) P = true := (keysMatch_iff _ _).mpr hall
  refine ⟨hkm, ?_, mergeKeys_self _ _ hall, ?_, ?_⟩
  · unfold createChanged
    rw [hkm]
    rfl
  · unfold createResult
    rw [if_pos hkm]
  · simp [createOp, hkm]

/-- Witness for C8 on a concrete document and plan. -/
theorem claim_C8_witness :
    keysMatch (mergeKeys [("z", "9")] [("a", "1")]) [("a", "1")] = true ∧
    createChanged (mergeKeys [("z", "9")] [("a", "1")]) [("a", "1")] = false ∧
    mergeKeys (mergeKeys [("z", "9")] [("a", "1")]) [("a", "1")] =
      mergeKeys [("z", "9")] [("a", "1")] ∧
    createResult (mergeKeys [("z", "9")] [("a", "1")]) [("a", "1")] =
      mergeKeys [("z", "9")] [("a", "1")] ∧
    createOp (.ok (mergeKeys [("z", "9")] [("a", "1")])) [("a", "1")] none =
      ⟨none, none⟩ :=
  claim_C8_create_idempotence [("z", "9")] [("a", "1")] (by decide)

/-- Claim C9: import adopts the entire fetched document as the initial managed
key set, key for key and value for value. -/
theorem claim_C9_import_adoption (id : String) (E : Doc) (mp pp : List Char)
    (hid : splitFirstSlash id.toList = some (mp, pp))
    (hm : mp.isEmpty = false) (hp : pp.isEmpty = false) :
    importOp id (.ok E) = ⟨none, some (mp.asString, pp.asString, E)⟩ := by
  unfold importOp
  rw [hid]
  simp [hm, hp]

/-- Witness for C9: spec example P7 — importing `mount/path` with existing
`{a:1, b:2}` adopts exactly `{a:1, b:2}`. -/
theorem claim_C9_witness :
    importOp "app_envs/my-service/test" (.ok [("a", "1"), ("b", "2")]) =
      ⟨none, some ("app_envs", "my-service/test", [("a", "1"), ("b", "2")])⟩ :=
  claim_C9_import_adoption "app_envs/my-service/test" [("a", "1"), ("b", "2")]
    "app_envs".toList "my-service/test".toList (by decide) (by decide) (by decide)

end VaultPatch
